import Mathlib

/-!
Verification of `qualcoder/select_items.py` (DialogSelectItems and ListModel).

The Python module implements a modal selection dialog over a caller-supplied
list of dictionaries ("records").  Each record must carry a `"name"` entry and
may carry a `"group"` entry.  We embed the record data model and the dialog's
operations (`__init__` scan, `fill_list`, `get_selected`, `ListModel`) as pure
Lean functions; Python exceptions (KeyError on a missing dictionary key,
IndexError on list indexing) are represented with `Except PyError`.  Qt-side
inputs (the combo box's current text, the list view's current row and selected
indexes) are passed as explicit arguments, mirroring how the Python code reads
them from the widgets.
-/

/-- A Python value stored under a record's `"name"` key.  The dialog only ever
tests its truthiness (`if not d['name']`) and wraps it in a `QVariant`, so we
model the values actually relevant to control flow: `None` and strings.  -/
inductive PyVal
  | pyNone
  | str (s : String)
deriving DecidableEq, Repr

/-- Python truthiness of a `PyVal`: `None` and the empty string are falsy. -/
def PyVal.truthy : PyVal → Bool
  | PyVal.pyNone => false
  | PyVal.str s => !(s = "")

/-- A record (Python dictionary) as seen by the dialog: the `"name"` key may be
absent (`Option.none`) — accessing it then raises KeyError — the `"group"` key
may be absent, and all further dictionary entries are opaque to this module; we
keep them abstract as a `payload` tag so distinct records stay distinct. -/
structure Record where
  name : Option PyVal
  group : Option String
  payload : Nat
deriving DecidableEq, Repr

/-- Python exceptions this module can raise. -/
inductive PyError
  | keyErrorName
  | keyErrorGroup
  | indexError
  | invalidRef
deriving DecidableEq, Repr

/-- The construction scan over `self.data` (select_items.py lines 102-108):
for each record, `if not d['name']` (raises KeyError when the key is absent,
otherwise flags a falsy name), then `try: groups.append(d['group']) except
KeyError: pass`.  Accumulates the no-name flag and the collected group list. -/
def initScanLoop (noNameKey : Bool) (groups : List String) :
    List Record → Except PyError (Bool × List String)
  | [] => Except.ok (noNameKey, groups)
  | d :: rest =>
    match d.name with
    | Option.none => Except.error PyError.keyErrorName
    | Option.some v =>
      initScanLoop (noNameKey || !v.truthy)
        (match d.group with
         | Option.some g => groups ++ [g]
         | Option.none => groups) rest

/-- Helper (not from the source): the groups the scan collects, in order. -/
def collectGroups (data : List Record) : List String :=
  data.filterMap Record.group

/-- Helper (not from the source): whether some record has a falsy name. -/
def anyFalsyName (data : List Record) : Bool :=
  data.any (fun d =>
    match d.name with
    | Option.some v => !v.truthy
    | Option.none => false)

/-- The loop body of `fill_list` (lines 137-140): `self.data_refined = []` then
append each record whose `d['group'] == grouper`; `d['group']` raises KeyError
when the record lacks the key. -/
def fillListLoop (grouper : String) (acc : List Record) :
    List Record → Except PyError (List Record)
  | [] => Except.ok acc
  | d :: rest =>
    match d.group with
    | Option.none => Except.error PyError.keyErrorGroup
    | Option.some g =>
      fillListLoop grouper (if g = grouper then acc ++ [d] else acc) rest

/-- `DialogSelectItems.fill_list` (lines 127-142), with the combo box's current
text passed in as `grouper`.  `self.data_refined = copy.copy(self.data)` makes
a shallow copy, so in the first branch the refined view holds exactly the
caller's records; otherwise the view is rebuilt by `fillListLoop`. -/
def fill_list (data : List Record) (groups : List String) (grouper : String) :
    Except PyError (List Record) :=
  if groups = [] ∨ grouper = "All" then Except.ok data
  else fillListLoop grouper [] data

/-- The value of `sys.excepthook`: either some handler installed before this
module runs, or this module's `exception_handler`. -/
inductive Hook
  | priorHandler (tag : Nat)
  | exceptionHandler
deriving DecidableEq, Repr

/-- Qt selection modes used by the dialog (lines 118-121). -/
inductive QtSelectionMode
  | singleSelection
  | extendedSelection
deriving DecidableEq, Repr

/-- Observable effects of `exception_handler` (lines 44-51). -/
inductive Effect
  | printText (s : String)
  | logError (s : String)
  | criticalDialog (s : String)
deriving DecidableEq, Repr

/-- The `text` built by `exception_handler` (lines 47-48). -/
def tracebackText (excTypeName value : String) (tbLines : List String) : String :=
  "Traceback (most recent call last):\n" ++ String.intercalate "\n" tbLines
    ++ "\n" ++ excTypeName ++ ": " ++ value

/-- `exception_handler` (lines 44-51): prints the traceback text, logs it as an
error (gettext `_` modelled as the identity translation) and shows a blocking
modal critical message box with the same text. -/
def exception_handler (excTypeName value : String) (tbLines : List String) :
    List Effect :=
  [Effect.printText (tracebackText excTypeName value tbLines),
   Effect.logError ("Uncaught exception: " ++ tracebackText excTypeName value tbLines),
   Effect.criticalDialog (tracebackText excTypeName value tbLines)]

/-- `list(set(...))` from line 113.  CPython's set iteration order is not
specified; we refine it deterministically to first-occurrence deduplication.
Our theorems about the group list only use order-insensitive facts (membership
and freedom from duplicates), which hold for every iteration order. -/
def pySetList (gs : List String) : List String :=
  gs.dedup

/-- The warning text of line 97. -/
def msgEmpty : String := "No data to select from"

/-- The warning text of line 110. -/
def msgNoName : String := "This data does not contain names to select from"

/-- The dialog state assembled by `DialogSelectItems.__init__` that later
operations read: the warnings surfaced, the group list, whether the group
combo box was enabled and what items it holds, the Qt selection mode, the
startup refined view and the exception hook. -/
structure InitState where
  emptyWarning : Bool
  noNameWarning : Bool
  groups : List String
  comboEnabled : Bool
  comboItems : List String
  selMode : QtSelectionMode
  data_refined : List Record
deriving DecidableEq, Repr

/-- The combo box's current text when `fill_list` first runs during
`__init__` (line 124).  Modelled from Qt semantics: a combo box with no items
has current text `""`; `addItems` on an empty combo makes the first item
current, and line 114 puts `"All"` first. -/
def startupGrouper (groups : List String) : String :=
  if groups = [] then "" else "All"

/-- `DialogSelectItems.__init__` (lines 75-125), restricted to the state the
later operations depend on.  The first statement (line 84) installs
`exception_handler` as `sys.excepthook`, so the returned hook is
`Hook.exceptionHandler` even when the subsequent scan raises.  The combo box
starts disabled (modelled from the spec: the Qt Designer `.ui` file, not under
src/, initializes the group filter control disabled) and is enabled at
line 115 only when groups were collected.  gettext `_("All")` is modelled as
`"All"`. -/
def DialogSelectItems.init (_prevHook : Hook) (data : List Record)
    (selection_mode : String) : Hook × Except PyError InitState :=
  (Hook.exceptionHandler,
    do
      let scan ← initScanLoop false [] data
      let noNameKey := scan.1
      let gs := scan.2
      let groups := if gs = [] then gs else "All" :: pySetList gs
      let refined ← fill_list data groups (startupGrouper groups)
      Except.ok
        { emptyWarning := decide (data.length = 0)
          noNameWarning := noNameKey
          groups := groups
          comboEnabled := decide (¬ gs = [])
          comboItems := if gs = [] then [] else groups
          selMode :=
            if selection_mode = "single" then QtSelectionMode.singleSelection
            else QtSelectionMode.extendedSelection
          data_refined := refined })

/-- The user-facing warning messages `__init__` emits, in order: the
empty-data warning of lines 96-97 precedes the loop, so it is emitted even
when the scan later raises; the no-name warning of lines 109-111 is emitted
once, after the loop, iff the flag was set. -/
def initMessages (data : List Record) : List String :=
  (if data.length = 0 then [msgEmpty] else []) ++
    (match initScanLoop false [] data with
     | Except.ok scan => if scan.1 then [msgNoName] else []
     | Except.error _ => [])

/-- Python list indexing `l[i]` for `i : Int`: negative indexes count from the
end; out of range raises IndexError. -/
def pyListGet {α : Type} (l : List α) (i : Int) : Except PyError α :=
  let j : Int := if i < 0 then i + l.length else i
  if h : 0 ≤ j ∧ j.toNat < l.length then Except.ok (l.get ⟨j.toNat, h.2⟩)
  else Except.error PyError.indexError

/-- The value returned by `get_selected`: in single mode either the empty list
(line 153) or one record (line 154); in multiple mode a list of records. -/
inductive Selected
  | emptyList
  | one (r : Record)
  | many (rs : List Record)
deriving DecidableEq, Repr

/-- The loop of lines 156-158: `selected = []`, then for each selected index
append `self.data_refined[item.row()]`. -/
def selectedLoop (data_refined : List Record) (acc : List Record) :
    List Nat → Except PyError (List Record)
  | [] => Except.ok acc
  | row :: rest =>
    match pyListGet data_refined (Int.ofNat row) with
    | Except.ok r => selectedLoop data_refined (acc ++ [r]) rest
    | Except.error e => Except.error e

/-- `DialogSelectItems.get_selected` (lines 144-159).  `currentRow` is
`self.ui.listView.currentIndex().row()` and `selectedRows` the rows of
`self.ui.listView.selectedIndexes()`, both supplied by Qt. -/
def get_selected (selection_mode : String) (data_refined : List Record)
    (currentRow : Int) (selectedRows : List Nat) : Except PyError Selected :=
  if selection_mode = "single" then
    if currentRow = -1 then Except.ok Selected.emptyList
    else do
      let r ← pyListGet data_refined currentRow
      Except.ok (Selected.one r)
  else
    match selectedLoop data_refined [] selectedRows with
    | Except.ok rs => Except.ok (Selected.many rs)
    | Except.error e => Except.error e

/-- `ListModel` (lines 162-178): wraps one refined-view snapshot. -/
structure ListModel where
  list : List Record
deriving DecidableEq, Repr

/-- `ListModel.__init__` (lines 163-166): installs `exception_handler` as
`sys.excepthook` and stores the list. -/
def ListModel.make (_prevHook : Hook) (data_list : List Record) :
    Hook × ListModel :=
  (Hook.exceptionHandler, { list := data_list })

/-- `ListModel.rowCount` (lines 168-169). -/
def ListModel.rowCount (m : ListModel) : Nat :=
  m.list.length

/-- The item-data roles the model distinguishes (lines 171-178). -/
inductive Role
  | displayRole
  | userRole
  | otherRole
deriving DecidableEq, Repr

/-- What `ListModel.data` returns: a `QVariant` wrapping the name value, the
whole record object, or the empty `QVariant()`. -/
inductive QVariantResult
  | qvariantVal (v : PyVal)
  | pyObject (r : Record)
  | emptyQVariant
deriving DecidableEq, Repr

/-- `ListModel.data` (lines 171-178): for the display role, look the row up
and wrap `row_item['name']` (KeyError when absent); for the user role, return
the whole record; otherwise the empty `QVariant`. -/
def ListModel.data (m : ListModel) (row : Int) (role : Role) :
    Except PyError QVariantResult :=
  match role with
  | Role.displayRole => do
    let row_item ← pyListGet m.list row
    match row_item.name with
    | Option.some v => Except.ok (QVariantResult.qvariantVal v)
    | Option.none => Except.error PyError.keyErrorName
  | Role.userRole => do
    let row_item ← pyListGet m.list row
    Except.ok (QVariantResult.pyObject row_item)
  | Role.otherRole => Except.ok QVariantResult.emptyQVariant

/-! ### A heap model for the frame claim

The caller's record list and the dictionaries in it are mutable Python
objects.  To state that the dialog never mutates them, we re-run the same
operations over an explicit heap of list objects and record objects.  List
objects hold record ids; operations that create lists (`copy.copy(self.data)`,
`self.data_refined = []`, `selected = []`) allocate fresh ids, and
`list.append` updates the binding of the id it is called on.  A claim about
the caller's data is then a claim about pre-existing heap bindings. -/

/-- The heap: list objects (by id, holding record ids), record objects (by
id), and the next fresh id. -/
structure Heap where
  listHeap : List (Nat × List Nat)
  recHeap : List (Nat × Record)
  nextId : Nat
deriving DecidableEq, Repr

/-- The heap is well formed when every allocated id is below `nextId`. -/
def Heap.wf (h : Heap) : Prop :=
  (∀ p ∈ h.listHeap, p.1 < h.nextId) ∧ (∀ p ∈ h.recHeap, p.1 < h.nextId)

/-- Association-list lookup used to dereference heap ids. -/
def alookup {β : Type} : List (Nat × β) → Nat → Option β
  | [], _ => Option.none
  | p :: rest, a => if a = p.1 then Option.some p.2 else alookup rest a

/-- Dereference a list object. -/
def Heap.getList (h : Heap) (id : Nat) : Option (List Nat) :=
  alookup h.listHeap id

/-- Dereference a record object. -/
def Heap.getRec (h : Heap) (id : Nat) : Option Record :=
  alookup h.recHeap id

/-- Allocate a fresh list object with the given contents. -/
def Heap.allocList (h : Heap) (contents : List Nat) : Heap × Nat :=
  ({ listHeap := (h.nextId, contents) :: h.listHeap
     recHeap := h.recHeap
     nextId := h.nextId + 1 }, h.nextId)

/-- `lst.append(rid)` on the list object `id`: updates that binding only. -/
def Heap.listAppend (h : Heap) (id : Nat) (rid : Nat) : Heap :=
  { h with
    listHeap := h.listHeap.map
      (fun p => if p.1 = id then (p.1, p.2 ++ [rid]) else p) }

/-- The `__init__` scan of lines 102-108 run against the heap: it reads each
record's `name` and `group` and writes nothing, so it returns the heap it was
given alongside the scan result.  (The `self.groups` list it also appends to
is a dialog-internal list of strings, not caller data.) -/
def initScanHeap (h : Heap) (noNameKey : Bool) (groups : List String) :
    List Nat → Except PyError (Heap × Bool × List String)
  | [] => Except.ok (h, noNameKey, groups)
  | rid :: rest =>
    match h.getRec rid with
    | Option.none => Except.error PyError.invalidRef
    | Option.some d =>
      match d.name with
      | Option.none => Except.error PyError.keyErrorName
      | Option.some v =>
        initScanHeap h (noNameKey || !v.truthy)
          (match d.group with
           | Option.some g => groups ++ [g]
           | Option.none => groups) rest

/-- The filtering loop of lines 138-140 against the heap: appends matching
record ids to the freshly allocated `refinedId` list. -/
def fillLoopHeap (grouper : String) (refinedId : Nat) :
    Heap → List Nat → Except PyError Heap
  | h, [] => Except.ok h
  | h, rid :: rest =>
    match h.getRec rid with
    | Option.none => Except.error PyError.invalidRef
    | Option.some d =>
      match d.group with
      | Option.none => Except.error PyError.keyErrorGroup
      | Option.some g =>
        if g = grouper then
          fillLoopHeap grouper refinedId (h.listAppend refinedId rid) rest
        else fillLoopHeap grouper refinedId h rest

/-- `fill_list` (lines 127-142) against the heap.  `copy.copy(self.data)`
allocates a new list object holding the same record ids (a shallow copy); in
the filtering branch `self.data_refined = []` allocates another fresh empty
list which the loop appends to.  Returns the final heap and the id the
dialog's `data_refined` attribute ends up bound to. -/
def fillListHeap (h : Heap) (dataId : Nat) (groups : List String)
    (grouper : String) : Except PyError (Heap × Nat) :=
  match h.getList dataId with
  | Option.none => Except.error PyError.invalidRef
  | Option.some rids =>
    let copyAlloc := h.allocList rids
    if groups = [] ∨ grouper = "All" then Except.ok copyAlloc
    else
      let emptyAlloc := copyAlloc.1.allocList []
      match fillLoopHeap grouper emptyAlloc.2 emptyAlloc.1 rids with
      | Except.ok h2 => Except.ok (h2, emptyAlloc.2)
      | Except.error e => Except.error e

/-- The loop of lines 157-158 against the heap: for each selected row, look
the record id up in the refined view's ids `rids` and append it to the
`selected` list object `selId`. -/
def selectedLoopHeap (rids : List Nat) (selId : Nat) :
    Heap → List Nat → Except PyError Heap
  | hh, [] => Except.ok hh
  | hh, row :: rest =>
    match pyListGet rids (Int.ofNat row) with
    | Except.ok rid => selectedLoopHeap rids selId (hh.listAppend selId rid) rest
    | Except.error e => Except.error e

/-- `get_selected` (lines 144-159) against the heap.  The single branch only
reads; the multiple branch allocates the fresh `selected = []` list and
appends the looked-up record ids to it.  Returns the final heap and the
outcome (`Sum.inl` a record id in single mode, `Sum.inr` the selected-list id
in multiple mode). -/
def getSelectedHeap (h : Heap) (selection_mode : String) (refinedId : Nat)
    (currentRow : Int) (selectedRows : List Nat) :
    Except PyError (Heap × Sum (Option Nat) Nat) :=
  match h.getList refinedId with
  | Option.none => Except.error PyError.invalidRef
  | Option.some rids =>
    if selection_mode = "single" then
      if currentRow = -1 then Except.ok (h, Sum.inl Option.none)
      else
        match pyListGet rids currentRow with
        | Except.ok rid => Except.ok (h, Sum.inl (Option.some rid))
        | Except.error e => Except.error e
    else
      let selAlloc := h.allocList []
      match selectedLoopHeap rids selAlloc.2 selAlloc.1 selectedRows with
      | Except.ok h2 => Except.ok (h2, Sum.inr selAlloc.2)
      | Except.error e => Except.error e

instance (h : Heap) : Decidable h.wf := by
  unfold Heap.wf; infer_instance

/-! ### Concrete records and heaps used by witnesses and counterexamples -/

/-- Record A of the spec's scenario: name "A", group "x". -/
def recA : Record := ⟨Option.some (PyVal.str "A"), Option.some "x", 0⟩

/-- Record B of the spec's scenario: name "B", group "y". -/
def recB : Record := ⟨Option.some (PyVal.str "B"), Option.some "y", 1⟩

/-- Record C of the spec's scenario: name "C", group "x". -/
def recC : Record := ⟨Option.some (PyVal.str "C"), Option.some "x", 2⟩

/-- A record whose dictionary has no `"name"` key at all. -/
def recNoName : Record := ⟨Option.none, Option.none, 3⟩

/-- A record with a name but no `"group"` key. -/
def recNoGroup : Record := ⟨Option.some (PyVal.str "D"), Option.none, 4⟩

/-- A record whose `"name"` value is present but falsy (the empty string). -/
def recEmptyName : Record := ⟨Option.some (PyVal.str ""), Option.some "x", 5⟩

/-- A concrete well-formed heap: list object 0 is the caller's record list,
holding records 1, 2, 3 (A, B, C). -/
def heap0 : Heap := ⟨[(0, [1, 2, 3])], [(1, recA), (2, recB), (3, recC)], 4⟩

/-- The heap `fillListHeap heap0 0 ["All","x","y"] "x"` produces: the shallow
copy (id 4) and the refined list (id 5) are fresh; binding 0 is untouched. -/
def heap0Filtered : Heap :=
  ⟨[(5, [1, 3]), (4, [1, 2, 3]), (0, [1, 2, 3])],
   [(1, recA), (2, recB), (3, recC)], 6⟩

theorem initScanLoop_eq (data : List Record) :
    ∀ (flag : Bool) (gs : List String),
      (∀ d ∈ data, d.name.isSome) →
      initScanLoop flag gs data =
        Except.ok (flag || anyFalsyName data, gs ++ collectGroups data) := by
  induction data with
  | nil => intro flag gs _; simp [initScanLoop, anyFalsyName, collectGroups]
  | cons d rest ih =>
    intro flag gs h
    have hd : d.name.isSome := h d (List.mem_cons_self d rest)
    match hv : d.name with
    | Option.none => simp [hv] at hd
    | Option.some v =>
      have hrest : ∀ e ∈ rest, e.name.isSome := fun e he => h e (List.mem_cons_of_mem d he)
      simp only [initScanLoop, hv]
      rw [ih _ _ hrest]
      simp only [anyFalsyName, collectGroups, List.any_cons, List.filterMap_cons]
      cases hg : d.group <;>
        simp [hv, hg, Bool.or_assoc, List.append_assoc]

theorem fillListLoop_eq (grouper : String) (data : List Record) :
    ∀ acc : List Record,
      (∀ d ∈ data, d.group.isSome) →
      fillListLoop grouper acc data =
        Except.ok (acc ++ data.filter (fun d => decide (d.group = Option.some grouper))) := by
  induction data with
  | nil => intro acc _; simp [fillListLoop]
  | cons d rest ih =>
    intro acc h
    have hd : d.group.isSome := h d (List.mem_cons_self d rest)
    match hg : d.group with
    | Option.none => simp [hg] at hd
    | Option.some g =>
      have hrest : ∀ e ∈ rest, e.group.isSome := fun e he => h e (List.mem_cons_of_mem d he)
      simp only [fillListLoop, hg]
      rw [ih _ hrest]
      by_cases hgg : g = grouper
      · subst hgg; simp [List.filter_cons, hg]
      · have hne : ¬ (Option.some g = Option.some grouper) := by
          intro hc; exact hgg (Option.some.inj hc)
        simp [hgg, List.filter_cons, hg, hne]

theorem pyListGet_nat {α : Type} (l : List α) (i : Nat) (h : i < l.length) :
    pyListGet l (Int.ofNat i) = Except.ok (l.get ⟨i, h⟩) := by
  unfold pyListGet
  have h0 : ¬ ((Int.ofNat i) < 0) := by simp
  have h1 : (0 : Int) ≤ Int.ofNat i := by simp
  simp only [h0, if_false]
  rw [dif_pos]
  · simp
  · exact ⟨h1, by simpa using h⟩

theorem initScanLoop_ok_names (data : List Record) :
    ∀ (flag : Bool) (gs : List String) (res : Bool × List String),
      initScanLoop flag gs data = Except.ok res → ∀ d ∈ data, d.name.isSome := by
  induction data with
  | nil => intro _ _ _ _ d hd; cases hd
  | cons d rest ih =>
    intro flag gs res hok e he
    match hv : d.name with
    | Option.none => rw [initScanLoop, hv] at hok; cases hok
    | Option.some v =>
      rw [initScanLoop, hv] at hok
      rcases List.mem_cons.mp he with he | he
      · subst he; simp [hv]
      · exact ih _ _ _ hok e he

theorem anyFalsyName_iff (data : List Record) :
    anyFalsyName data = true ↔
      ∃ d ∈ data, ∃ v, d.name = Option.some v ∧ v.truthy = false := by
  unfold anyFalsyName
  rw [List.any_eq_true]
  constructor
  · rintro ⟨d, hd, hp⟩
    refine ⟨d, hd, ?_⟩
    match hv : d.name with
    | Option.none => rw [hv] at hp; cases hp
    | Option.some v =>
      rw [hv] at hp
      exact ⟨v, rfl, by simpa using hp⟩
  · rintro ⟨d, hd, v, hv, hf⟩
    exact ⟨d, hd, by rw [hv]; simpa using hf⟩

theorem startup_fill (data : List Record) (gs : List String) :
    fill_list data (if gs = [] then gs else "All" :: pySetList gs)
      (startupGrouper (if gs = [] then gs else "All" :: pySetList gs)) =
      Except.ok data := by
  by_cases hgs : gs = []
  · simp [hgs, fill_list, startupGrouper]
  · simp only [hgs, if_false]
    have h1 : ¬ (("All" :: pySetList gs) = ([] : List String)) := by simp
    simp [fill_list, startupGrouper, h1]

theorem init_ok (prev : Hook) (mode : String) (data : List Record)
    (flag : Bool) (gs : List String)
    (hscan : initScanLoop false [] data = Except.ok (flag, gs)) :
    (DialogSelectItems.init prev data mode).2 = Except.ok
      { emptyWarning := decide (data.length = 0)
        noNameWarning := flag
        groups := if gs = [] then gs else "All" :: pySetList gs
        comboEnabled := decide (¬ gs = [])
        comboItems := if gs = [] then [] else "All" :: pySetList gs
        selMode :=
          if mode = "single" then QtSelectionMode.singleSelection
          else QtSelectionMode.extendedSelection
        data_refined := data } := by
  unfold DialogSelectItems.init
  rw [hscan]
  simp only [Bind.bind, Except.bind]
  rw [startup_fill data gs]
  by_cases hgs : gs = [] <;> simp [hgs]

/-- C1 counterexample.  The claim quantifies over every Record Set, but when a
specific group is selected and some record lacks the `"group"` key,
`fill_list` raises KeyError at `d['group']` (line 139) instead of producing
the ordered subset: with data `[recA, recNoGroup]`, groups `["All", "x"]` and
selected group `"x"`, the result is an error, not the subset `[recA]`. -/
theorem c1_counterexample :
    fill_list [recA, recNoGroup] ["All", "x"] "x" =
        Except.error PyError.keyErrorGroup ∧
      fill_list [recA, recNoGroup] ["All", "x"] "x" ≠ Except.ok [recA] := by
  constructor
  · rfl
  · intro hcontra
    cases hcontra

/-- C1 (amended): the filter-by-group operation produces a Filtered View equal
to the entire Record Set when no groups exist or "All" is the selected group;
otherwise, provided every record carries the `"group"` key, it is exactly the
ordered subset of records whose `"group"` field equals the selected value
(records lacking the key make the operation raise KeyError instead). -/
theorem c1_fill_list_filter (data : List Record) (groups : List String)
    (grouper : String) :
    ((groups = [] ∨ grouper = "All") →
        fill_list data groups grouper = Except.ok data) ∧
      (¬ (groups = [] ∨ grouper = "All") →
        (∀ d ∈ data, d.group.isSome) →
        fill_list data groups grouper =
          Except.ok
            (data.filter (fun d => decide (d.group = Option.some grouper)))) := by
  constructor
  · intro h
    simp [fill_list, h]
  · intro h hall
    rw [fill_list, if_neg h, fillListLoop_eq grouper data [] hall]
    simp

/-- C1 witness: on the spec's scenario records `[A, B, C]` with groups
`x, y, x`, selecting `"x"` yields exactly `[A, C]` and selecting `"All"`
yields the full set. -/
theorem c1_witness :
    fill_list [recA, recB, recC] ["All", "x", "y"] "x" =
        Except.ok [recA, recC] ∧
      fill_list [recA, recB, recC] ["All", "x", "y"] "All" =
        Except.ok [recA, recB, recC] := by
  constructor
  · have h := (c1_fill_list_filter [recA, recB, recC] ["All", "x", "y"] "x").2
      (by decide) (by decide)
    rw [h]
    rfl
  · exact (c1_fill_list_filter [recA, recB, recC] ["All", "x", "y"] "All").1
      (Or.inr rfl)

/-- C2 counterexample.  A Record Set containing a record that genuinely lacks
the `"name"` key does not yield a warning-and-proceed: `d['name']` at line 103
raises KeyError (only `d['group']` is guarded by try/except), so construction
raises and no warning message is emitted. -/
theorem c2_counterexample :
    (DialogSelectItems.init (Hook.priorHandler 0) [recNoName] "single").2 =
        Except.error PyError.keyErrorName ∧
      initMessages [recNoName] = [] := by
  constructor <;> rfl

/-- C2 (amended): when every record carries the `"name"` key and at least one
has a falsy name value, construction surfaces the non-fatal no-name warning,
proceeds (no exception), and the malformed records still occupy rows of the
startup view; a record lacking the `"name"` key entirely instead makes
construction raise KeyError. -/
theorem c2_no_name_warning (prev : Hook) (mode : String) (data : List Record)
    (hnames : ∀ d ∈ data, d.name.isSome)
    (hfalsy : ∃ d ∈ data, ∃ v, d.name = Option.some v ∧ v.truthy = false) :
    ∃ st, (DialogSelectItems.init prev data mode).2 = Except.ok st ∧
      st.noNameWarning = true ∧ st.data_refined = data ∧
      msgNoName ∈ initMessages data := by
  have hscan := initScanLoop_eq data false [] hnames
  simp only [Bool.false_or, List.nil_append] at hscan
  have hflag : anyFalsyName data = true := (anyFalsyName_iff data).mpr hfalsy
  refine ⟨_, init_ok prev mode data (anyFalsyName data) (collectGroups data) hscan,
    hflag, rfl, ?_⟩
  unfold initMessages
  rw [hscan, hflag]
  simp

/-- C2 witness: a one-record set whose record has `"name"` present but equal
to the empty string triggers the warning, construction succeeds and the
record still occupies a row. -/
theorem c2_witness :
    ∃ st, (DialogSelectItems.init (Hook.priorHandler 0) [recEmptyName]
        "single").2 = Except.ok st ∧
      st.noNameWarning = true ∧ st.data_refined = [recEmptyName] ∧
      msgNoName ∈ initMessages [recEmptyName] :=
  c2_no_name_warning (Hook.priorHandler 0) "single" [recEmptyName]
    (by decide)
    ⟨recEmptyName, List.mem_singleton.mpr rfl, PyVal.str "", rfl, by decide⟩

/-- C3: in single selection mode, `get_selected` returns the empty result when
no row is highlighted (current row is -1), and returns exactly the record at
index i of the current Filtered View when row i is highlighted. -/
theorem c3_get_selected_single (view : List Record) (rows : List Nat) :
    get_selected "single" view (-1) rows = Except.ok Selected.emptyList ∧
      ∀ (i : Nat) (h : i < view.length),
        get_selected "single" view (Int.ofNat i) rows =
          Except.ok (Selected.one (view.get ⟨i, h⟩)) := by
  constructor
  · simp [get_selected]
  · intro i h
    have hge : (0 : Int) ≤ Int.ofNat i := by simp
    have hne : ¬ ((Int.ofNat i) = -1) := by omega
    rw [get_selected, if_pos rfl, if_neg hne]
    rw [pyListGet_nat view i h]
    rfl

/-- C3 witness: with Filtered View `[A, C]`, no highlighted row returns the
empty result and highlighted row 1 returns record C. -/
theorem c3_witness :
    get_selected "single" [recA, recC] (-1) [] = Except.ok Selected.emptyList ∧
      get_selected "single" [recA, recC] (Int.ofNat 1) [] =
        Except.ok (Selected.one recC) := by
  refine ⟨(c3_get_selected_single [recA, recC] []).1, ?_⟩
  have h := (c3_get_selected_single [recA, recC] []).2 1 (by decide)
  rw [h]
  rfl

theorem selectedLoop_ok (view : List Record) (rows : List Nat)
    (hall : ∀ i ∈ rows, i < view.length) :
    ∀ acc : List Record,
      ∃ rs : List Record,
        selectedLoop view acc rows = Except.ok (acc ++ rs) ∧
        rs.length = rows.length ∧
        (∀ (k i : Nat), rows.get? k = Option.some i → rs.get? k = view.get? i) ∧
        (∀ r ∈ rs, r ∈ view) := by
  induction rows with
  | nil =>
    intro acc
    exact ⟨[], by simp [selectedLoop], rfl, by simp, by simp⟩
  | cons i rest ih =>
    intro acc
    have hi : i < view.length := hall i (List.mem_cons_self i rest)
    have hrest : ∀ j ∈ rest, j < view.length :=
      fun j hj => hall j (List.mem_cons_of_mem i hj)
    obtain ⟨rs, h1, h2, h3, h4⟩ := ih hrest (acc ++ [view.get ⟨i, hi⟩])
    refine ⟨view.get ⟨i, hi⟩ :: rs, ?_, by simp [h2], ?_, ?_⟩
    · rw [selectedLoop, pyListGet_nat view i hi]
      show selectedLoop view (acc ++ [view.get ⟨i, hi⟩]) rest = _
      rw [h1]
      simp
    · intro k j hk
      match k with
      | 0 =>
        have hj : i = j := by
          simpa using hk
        subst hj
        simp [List.get?_eq_get hi]
      | Nat.succ k =>
        exact h3 k j (by simpa using hk)
    · intro r hr
      rcases List.mem_cons.mp hr with hr | hr
      · subst hr; exact List.get_mem view _ _
      · exact h4 r hr

/-- C4: in multiple selection mode, `get_selected` returns the records at the
highlighted row indices in the view's selection order: the result has one
entry per selected row (so distinct rows give no duplicate entries), entry k
is exactly the Filtered View's record at the k-th selected row, and every
returned record belongs to the current Filtered View. -/
theorem c4_get_selected_multiple (mode : String) (view : List Record)
    (currentRow : Int) (rows : List Nat)
    (hmode : mode ≠ "single") (hall : ∀ i ∈ rows, i < view.length) :
    ∃ rs : List Record,
      get_selected mode view currentRow rows =
          Except.ok (Selected.many rs) ∧
        rs.length = rows.length ∧
        (∀ (k i : Nat), rows.get? k = Option.some i → rs.get? k = view.get? i) ∧
        (∀ r ∈ rs, r ∈ view) := by
  obtain ⟨rs, h1, h2, h3, h4⟩ := selectedLoop_ok view rows hall []
  refine ⟨rs, ?_, h2, h3, h4⟩
  rw [get_selected, if_neg hmode]
  rw [show ([] : List Record) ++ rs = rs from rfl] at h1
  rw [h1]

/-- C4 witness: the spec's scenario.  Record Set `[A, B, C]` with groups
`x, y, x`; filtering by `"x"` gives the view `[A, C]`; selecting both rows in
multiple mode returns `[A, C]` and never `B`. -/
theorem c4_witness :
    fill_list [recA, recB, recC] ["All", "x", "y"] "x" =
        Except.ok [recA, recC] ∧
      ∃ rs : List Record,
        get_selected "multiple" [recA, recC] 0 [0, 1] =
            Except.ok (Selected.many rs) ∧
          rs.length = 2 ∧
          rs.get? 0 = Option.some recA ∧
          rs.get? 1 = Option.some recC ∧
          ¬ recB ∈ rs := by
  refine ⟨rfl, ?_⟩
  obtain ⟨rs, hget, hlen, hpt, hmem⟩ :=
    c4_get_selected_multiple "multiple" [recA, recC] 0 [0, 1]
      (by decide) (by decide)
  refine ⟨rs, hget, by simpa using hlen, ?_, ?_, ?_⟩
  · exact (hpt 0 0 rfl).trans rfl
  · exact (hpt 1 1 rfl).trans rfl
  · intro hB
    exact absurd (hmem recB hB) (by decide)

/-- C5: on construction (when the scan completes), the Group Set is empty iff
no record carries a `"group"` key; when some record does, the group list is
the sentinel `"All"` prepended to the deduplicated distinct group values, and
the filter control is enabled and populated with exactly these values; when
none does, the group list is empty, the control stays disabled, and the
startup view shows all records. -/
theorem c5_group_set (prev : Hook) (mode : String) (data : List Record)
    (flag : Bool) (gs : List String)
    (hscan : initScanLoop false [] data = Except.ok (flag, gs)) :
    ∃ st, (DialogSelectItems.init prev data mode).2 = Except.ok st ∧
      (gs = [] ↔ ∀ d ∈ data, d.group = Option.none) ∧
      (¬ gs = [] →
        st.groups = "All" :: pySetList gs ∧
        st.groups.head? = Option.some "All" ∧
        (pySetList gs).Nodup ∧
        (∀ g, g ∈ pySetList gs ↔ ∃ d ∈ data, d.group = Option.some g) ∧
        st.comboEnabled = true ∧
        st.comboItems = st.groups) ∧
      (gs = [] →
        st.groups = [] ∧ st.comboEnabled = false ∧ st.comboItems = [] ∧
        st.data_refined = data) := by
  have hnames : ∀ d ∈ data, d.name.isSome :=
    initScanLoop_ok_names data false [] (flag, gs) hscan
  have heq := initScanLoop_eq data false [] hnames
  simp only [Bool.false_or, List.nil_append] at heq
  have hgs : gs = collectGroups data := by
    have := hscan.symm.trans heq
    exact (Prod.mk.injEq _ _ _ _).mp (Except.ok.inj this) |>.2
  refine ⟨_, init_ok prev mode data flag gs hscan, ?_, ?_, ?_⟩
  · rw [hgs]
    unfold collectGroups
    rw [List.filterMap_eq_nil_iff]
  · intro hne
    refine ⟨?_, ?_, ?_, ?_, ?_, ?_⟩
    · simp [hne]
    · simp [hne]
    · exact List.nodup_dedup gs
    · intro g
      rw [pySetList, List.mem_dedup, hgs, collectGroups, List.mem_filterMap]
    · simp [hne]
    · simp [hne]
  · intro hnil
    refine ⟨by simp [hnil], by simp [hnil], by simp [hnil], rfl⟩

/-- C5 witness: on `[A, B, C]` (groups collected `["x","y","x"]`) the combo
box is enabled and populated with `"All"` first; on `[recNoGroup]` (no group
key anywhere) the group list is empty, the combo box stays disabled and the
startup view shows the record anyway. -/
theorem c5_witness :
    (∃ st, (DialogSelectItems.init (Hook.priorHandler 0) [recA, recB, recC]
        "single").2 = Except.ok st ∧
      st.groups = "All" :: pySetList ["x", "y", "x"] ∧
      st.groups.head? = Option.some "All" ∧
      st.comboEnabled = true ∧ st.comboItems = st.groups) ∧
    (∃ st, (DialogSelectItems.init (Hook.priorHandler 0) [recNoGroup]
        "single").2 = Except.ok st ∧
      st.groups = [] ∧ st.comboEnabled = false ∧
      st.data_refined = [recNoGroup]) := by
  constructor
  · obtain ⟨st, hok, hiff, hsome, hnil⟩ :=
      c5_group_set (Hook.priorHandler 0) "single" [recA, recB, recC]
        false ["x", "y", "x"] rfl
    obtain ⟨hg, hh, hnd, hm, hen, hitems⟩ := hsome (by decide)
    exact ⟨st, hok, hg, hh, hen, hitems⟩
  · obtain ⟨st, hok, hiff, hsome, hnil⟩ :=
      c5_group_set (Hook.priorHandler 0) "single" [recNoGroup] false [] rfl
    obtain ⟨hg, hen, hitems, href⟩ := hnil rfl
    exact ⟨st, hok, hg, hen, href⟩

theorem alookup_some_mem {β : Type} (a : Nat) (b : β) :
    ∀ l : List (Nat × β), alookup l a = Option.some b → ∃ p ∈ l, p.1 = a := by
  intro l
  induction l with
  | nil => intro h; cases h
  | cons p rest ih =>
    intro h
    rw [alookup] at h
    by_cases hpa : a = p.1
    · exact ⟨p, List.mem_cons_self p rest, hpa.symm⟩
    · rw [if_neg hpa] at h
      obtain ⟨q, hq, hqa⟩ := ih h
      exact ⟨q, List.mem_cons_of_mem p hq, hqa⟩

theorem alookup_listAppend_ne (targetId rid a : Nat) (hne : ¬ a = targetId) :
    ∀ l : List (Nat × List Nat),
      alookup (l.map
        (fun p => if p.1 = targetId then (p.1, p.2 ++ [rid]) else p)) a =
        alookup l a := by
  intro l
  induction l with
  | nil => rfl
  | cons p rest ih =>
    rw [List.map_cons, alookup, alookup]
    by_cases hpt : p.1 = targetId
    · have hap : ¬ a = p.1 := fun hc => hne (hc.trans hpt)
      rw [if_pos hpt]
      simp only [hap, if_false, ih]
    · rw [if_neg hpt]
      by_cases hap : a = p.1
      · simp [hap]
      · simp only [hap, if_false, ih]

theorem initScanHeap_same_heap (h : Heap) :
    ∀ (rids : List Nat) (flag : Bool) (gstrs : List String)
      (res : Heap × Bool × List String),
      initScanHeap h flag gstrs rids = Except.ok res → res.1 = h := by
  intro rids
  induction rids with
  | nil =>
    intro flag gstrs res hok
    rw [initScanHeap] at hok
    cases hok
    rfl
  | cons rid rest ih =>
    intro flag gstrs res hok
    rw [initScanHeap] at hok
    split at hok
    · cases hok
    · split at hok
      · cases hok
      · exact ih _ _ _ hok

theorem fillLoopHeap_preserves (grouper : String) (refinedId : Nat) :
    ∀ (rids : List Nat) (h h2 : Heap),
      fillLoopHeap grouper refinedId h rids = Except.ok h2 →
      h2.recHeap = h.recHeap ∧ h2.nextId = h.nextId ∧
        ∀ a, ¬ a = refinedId →
          alookup h2.listHeap a = alookup h.listHeap a := by
  intro rids
  induction rids with
  | nil =>
    intro h h2 hok
    rw [fillLoopHeap] at hok
    cases hok
    exact ⟨rfl, rfl, fun _ _ => rfl⟩
  | cons rid rest ih =>
    intro h h2 hok
    rw [fillLoopHeap] at hok
    split at hok
    · cases hok
    · split at hok
      · cases hok
      · split at hok
        · obtain ⟨h1, h2n, h3⟩ := ih (h.listAppend refinedId rid) h2 hok
          refine ⟨h1, h2n, fun a ha => ?_⟩
          rw [h3 a ha]
          exact alookup_listAppend_ne refinedId rid a ha h.listHeap
        · exact ih h h2 hok

theorem selectedLoopHeap_preserves (rids : List Nat) (selId : Nat) :
    ∀ (rows : List Nat) (h h2 : Heap),
      selectedLoopHeap rids selId h rows = Except.ok h2 →
      h2.recHeap = h.recHeap ∧ h2.nextId = h.nextId ∧
        ∀ a, ¬ a = selId →
          alookup h2.listHeap a = alookup h.listHeap a := by
  intro rows
  induction rows with
  | nil =>
    intro h h2 hok
    rw [selectedLoopHeap] at hok
    cases hok
    exact ⟨rfl, rfl, fun _ _ => rfl⟩
  | cons row rest ih =>
    intro h h2 hok
    rw [selectedLoopHeap] at hok
    split at hok
    · obtain ⟨h1, h2n, h3⟩ := ih (h.listAppend selId _) h2 hok
      refine ⟨h1, h2n, fun a ha => ?_⟩
      rw [h3 a ha]
      exact alookup_listAppend_ne selId _ a ha h.listHeap
    · cases hok

theorem getList_lt_nextId (h : Heap) (hwf : h.wf) (a : Nat) (l : List Nat)
    (hb : h.getList a = Option.some l) : a < h.nextId := by
  obtain ⟨p, hp, hpa⟩ := alookup_some_mem a l h.listHeap hb
  have := hwf.1 p hp
  omega

theorem getList_allocList (h : Heap) (c : List Nat) (a : Nat)
    (ha : ¬ a = h.nextId) : (h.allocList c).1.getList a = h.getList a := by
  rw [Heap.allocList, Heap.getList, Heap.getList]
  rw [alookup]
  simp [ha]

theorem fillListHeap_preserves (h : Heap) (dataId : Nat) (groups : List String)
    (grouper : String) (h2 : Heap) (refId : Nat) (hwf : h.wf)
    (hok : fillListHeap h dataId groups grouper = Except.ok (h2, refId)) :
    h2.recHeap = h.recHeap ∧
      ∀ a l, h.getList a = Option.some l → h2.getList a = Option.some l := by
  simp only [fillListHeap] at hok
  split at hok
  · cases hok
  · rename_i rids hrids
    split at hok
    · cases hok
      refine ⟨rfl, fun a l hb => ?_⟩
      have hlt := getList_lt_nextId h hwf a l hb
      exact (getList_allocList h rids a (by omega)).trans hb
    · split at hok
      · rename_i hexc hloop
        cases hok
        have hpres := fillLoopHeap_preserves grouper
          ((h.allocList rids).1.allocList []).2 rids
          ((h.allocList rids).1.allocList []).1 h2 hloop
        have hacopy : (h.allocList rids).1.nextId = h.nextId + 1 := rfl
        have hsel : ((h.allocList rids).1.allocList []).2 = h.nextId + 1 := rfl
        refine ⟨hpres.1, fun a l hb => ?_⟩
        have hlt := getList_lt_nextId h hwf a l hb
        rw [Heap.getList, hpres.2.2 a (by omega)]
        have e1 : alookup ((h.allocList rids).1.allocList []).1.listHeap a =
            ((h.allocList rids).1.allocList []).1.getList a := rfl
        rw [e1, getList_allocList (h.allocList rids).1 [] a (by omega)]
        rw [getList_allocList h rids a (by omega)]
        exact hb
      · cases hok

theorem getSelectedHeap_preserves (h : Heap) (mode : String) (refId : Nat)
    (currentRow : Int) (rows : List Nat) (h2 : Heap)
    (out : Sum (Option Nat) Nat) (hwf : h.wf)
    (hok : getSelectedHeap h mode refId currentRow rows =
      Except.ok (h2, out)) :
    h2.recHeap = h.recHeap ∧
      ∀ a l, h.getList a = Option.some l → h2.getList a = Option.some l := by
  simp only [getSelectedHeap] at hok
  split at hok
  · cases hok
  · rename_i rids hrids
    split at hok
    · split at hok
      · cases hok
        exact ⟨rfl, fun a l hb => hb⟩
      · split at hok
        · cases hok
          exact ⟨rfl, fun a l hb => hb⟩
        · cases hok
    · split at hok
      · rename_i hexc hloop
        cases hok
        have hpres := selectedLoopHeap_preserves rids (h.allocList []).2
          rows (h.allocList []).1 h2 hloop
        refine ⟨hpres.1, fun a l hb => ?_⟩
        have hlt := getList_lt_nextId h hwf a l hb
        have hsel : (h.allocList []).2 = h.nextId := rfl
        rw [Heap.getList, hpres.2.2 a (by omega)]
        have e1 : alookup (h.allocList []).1.listHeap a =
            (h.allocList []).1.getList a := rfl
        rw [e1, getList_allocList h [] a (by omega)]
        exact hb
      · cases hok

/-- C6: no operation of the dialog mutates the caller's list or the records
in it.  Over the explicit heap model: the construction scan returns the heap
unchanged, and `fill_list` and `get_selected` (which allocate the shallow
copy, the refined list and the selected list as fresh objects and append only
to those) leave every pre-existing list binding and the entire record heap
unchanged. -/
theorem c6_no_caller_mutation (h : Heap) (hwf : h.wf) :
    (∀ (flag : Bool) (gstrs : List String) (rids : List Nat)
        (res : Heap × Bool × List String),
        initScanHeap h flag gstrs rids = Except.ok res → res.1 = h) ∧
      (∀ (dataId : Nat) (groups : List String) (grouper : String)
          (h2 : Heap) (refId : Nat),
          fillListHeap h dataId groups grouper = Except.ok (h2, refId) →
          h2.recHeap = h.recHeap ∧
            ∀ a l, h.getList a = Option.some l →
              h2.getList a = Option.some l) ∧
      (∀ (mode : String) (refId : Nat) (currentRow : Int) (rows : List Nat)
          (h2 : Heap) (out : Sum (Option Nat) Nat),
          getSelectedHeap h mode refId currentRow rows =
              Except.ok (h2, out) →
          h2.recHeap = h.recHeap ∧
            ∀ a l, h.getList a = Option.some l →
              h2.getList a = Option.some l) := by
  refine ⟨?_, ?_, ?_⟩
  · intro flag gstrs rids res hok
    exact initScanHeap_same_heap h rids flag gstrs res hok
  · intro dataId groups grouper h2 refId hok
    exact fillListHeap_preserves h dataId groups grouper h2 refId hwf hok
  · intro mode refId currentRow rows h2 out hok
    exact getSelectedHeap_preserves h mode refId currentRow rows h2 out hwf hok

/-- C6 witness: on the concrete heap `heap0` (caller list 0 holding records
1, 2, 3), filtering by `"x"` allocates fresh objects 4 and 5 and leaves the
caller's binding and every record exactly as before. -/
theorem c6_witness :
    heap0.wf ∧
      fillListHeap heap0 0 ["All", "x", "y"] "x" =
        Except.ok (heap0Filtered, 5) ∧
      heap0Filtered.recHeap = heap0.recHeap ∧
      heap0.getList 0 = Option.some [1, 2, 3] ∧
      heap0Filtered.getList 0 = Option.some [1, 2, 3] := by
  have hwf : heap0.wf := by decide
  have heq : fillListHeap heap0 0 ["All", "x", "y"] "x" =
      Except.ok (heap0Filtered, 5) := rfl
  have hpres := (c6_no_caller_mutation heap0 hwf).2.1 0 ["All", "x", "y"] "x"
    heap0Filtered 5 heq
  exact ⟨hwf, heq, hpres.1, rfl, hpres.2 0 [1, 2, 3] rfl⟩

/-- C7: the list adapter reports a row count equal to its snapshot's length;
for every valid row, the display-role query returns (a `QVariant` wrapping)
the record's `"name"` value and the user-role query returns the full
underlying record object. -/
theorem c7_list_model (m : ListModel) (row : Nat) (hrow : row < m.list.length) :
    m.rowCount = m.list.length ∧
      (∀ v, (m.list.get ⟨row, hrow⟩).name = Option.some v →
        m.data (Int.ofNat row) Role.displayRole =
          Except.ok (QVariantResult.qvariantVal v)) ∧
      m.data (Int.ofNat row) Role.userRole =
        Except.ok (QVariantResult.pyObject (m.list.get ⟨row, hrow⟩)) := by
  refine ⟨rfl, ?_, ?_⟩
  · intro v hv
    rw [ListModel.data, pyListGet_nat m.list row hrow]
    show (match (m.list.get ⟨row, hrow⟩).name with
      | Option.some v => Except.ok (QVariantResult.qvariantVal v)
      | Option.none => Except.error PyError.keyErrorName) = _
    rw [hv]
  · rw [ListModel.data, pyListGet_nat m.list row hrow]
    rfl

/-- C7 witness: the one-row snapshot `[recA]` reports count 1, display label
`"A"` and the full record on the user role. -/
theorem c7_witness :
    (ListModel.mk [recA]).rowCount = 1 ∧
      (ListModel.mk [recA]).data (Int.ofNat 0) Role.displayRole =
        Except.ok (QVariantResult.qvariantVal (PyVal.str "A")) ∧
      (ListModel.mk [recA]).data (Int.ofNat 0) Role.userRole =
        Except.ok (QVariantResult.pyObject recA) := by
  obtain ⟨h1, h2, h3⟩ := c7_list_model (ListModel.mk [recA]) 0 (by decide)
  exact ⟨h1, h2 (PyVal.str "A") rfl, h3⟩

/-- C8: constructing the dialog or the list adapter installs the module's
uncaught-exception handler as the process-wide `sys.excepthook`, whatever
handler was installed before; the handler logs the full traceback text as an
error and shows a blocking modal critical dialog with that text. -/
theorem c8_excepthook (prev : Hook) (data dl : List Record)
    (mode excName value : String) (tbLines : List String) :
    (DialogSelectItems.init prev data mode).1 = Hook.exceptionHandler ∧
      (ListModel.make prev dl).1 = Hook.exceptionHandler ∧
      Effect.logError ("Uncaught exception: " ++
          tracebackText excName value tbLines) ∈
        exception_handler excName value tbLines ∧
      Effect.criticalDialog (tracebackText excName value tbLines) ∈
        exception_handler excName value tbLines := by
  refine ⟨rfl, rfl, ?_, ?_⟩
  · rw [exception_handler]
    exact List.mem_cons_of_mem _ (List.mem_cons_self _ _)
  · rw [exception_handler]
    exact List.mem_cons_of_mem _ (List.mem_cons_of_mem _ (List.mem_cons_self _ _))

/-- C9: every selection-mode string other than exactly `"single"` yields
multiple-selection behaviour — the list view is put in extended selection and
`get_selected` takes the list-returning branch — while exactly `"single"`
yields single selection. -/
theorem c9_selection_mode (mode : String) (hmode : mode ≠ "single") :
    (∀ (prev : Hook) (data : List Record) (st : InitState),
        (DialogSelectItems.init prev data mode).2 = Except.ok st →
        st.selMode = QtSelectionMode.extendedSelection) ∧
      (∀ (view : List Record) (currentRow : Int) (rows : List Nat),
        (∀ i ∈ rows, i < view.length) →
        ∃ rs, get_selected mode view currentRow rows =
          Except.ok (Selected.many rs)) ∧
      (∀ (prev : Hook) (data : List Record) (st : InitState),
        (DialogSelectItems.init prev data "single").2 = Except.ok st →
        st.selMode = QtSelectionMode.singleSelection) := by
  refine ⟨?_, ?_, ?_⟩
  · intro prev data st hok
    match hscan : initScanLoop false [] data with
    | Except.error e =>
      rw [DialogSelectItems.init] at hok
      simp only [Bind.bind, Except.bind, hscan] at hok
      cases hok
    | Except.ok scan =>
      have h1 := init_ok prev mode data scan.1 scan.2 hscan
      rw [h1] at hok
      cases hok
      simp [hmode]
  · intro view currentRow rows hall
    obtain ⟨rs, h1, h2, h3, h4⟩ :=
      c4_get_selected_multiple mode view currentRow rows hmode hall
    exact ⟨rs, h1⟩
  · intro prev data st hok
    match hscan : initScanLoop false [] data with
    | Except.error e =>
      rw [DialogSelectItems.init] at hok
      simp only [Bind.bind, Except.bind, hscan] at hok
      cases hok
    | Except.ok scan =>
      have h1 := init_ok prev "single" data scan.1 scan.2 hscan
      rw [h1] at hok
      cases hok
      simp

/-- C9 witness: the string `"Single"` (wrong case) is not `"single"`, so the
dialog is in multiple mode: extended selection and a list result. -/
theorem c9_witness :
    (∃ st, (DialogSelectItems.init (Hook.priorHandler 0) [recA] "Single").2 =
        Except.ok st ∧ st.selMode = QtSelectionMode.extendedSelection) ∧
      (∃ rs, get_selected "Single" [recA] 0 [0] =
        Except.ok (Selected.many rs)) := by
  obtain ⟨hinit, hmany, hsingle⟩ := c9_selection_mode "Single" (by decide)
  constructor
  · have hok : (DialogSelectItems.init (Hook.priorHandler 0) [recA]
        "Single").2 = Except.ok
          { emptyWarning := false, noNameWarning := false
            groups := ["All", "x"], comboEnabled := true
            comboItems := ["All", "x"]
            selMode := QtSelectionMode.extendedSelection
            data_refined := [recA] } := rfl
    exact ⟨_, hok, hinit (Hook.priorHandler 0) [recA] _ hok⟩
  · exact hmany [recA] 0 [0] (by decide)

/-- C10: the no-name warning is driven by truthiness, not key presence: when
every record carries the `"name"` key, the warning flag is set iff some
record's name value is falsy (`None` or the empty string), and however many
such records there are, the no-name warning message is emitted at most
once. -/
theorem c10_falsy_name_warning (data : List Record) :
    ((∀ d ∈ data, d.name.isSome) →
        ∃ gs, initScanLoop false [] data =
            Except.ok (anyFalsyName data, gs) ∧
          (anyFalsyName data = true ↔
            ∃ d ∈ data, ∃ v, d.name = Option.some v ∧ v.truthy = false)) ∧
      (initMessages data).count msgNoName ≤ 1 := by
  constructor
  · intro hnames
    refine ⟨collectGroups data, ?_, anyFalsyName_iff data⟩
    have h := initScanLoop_eq data false [] hnames
    simpa using h
  · rw [initMessages]
    rw [List.count_append]
    have h1 : List.count msgNoName (if data.length = 0 then [msgEmpty] else []) = 0 := by
      by_cases hd : data.length = 0 <;> simp [hd, List.count_cons, msgEmpty, msgNoName]
    rw [h1]
    match initScanLoop false [] data with
    | Except.error e => simp
    | Except.ok scan =>
      by_cases hf : scan.1 <;> simp [hf, List.count_cons]

/-- C10 witness: two records whose `"name"` values are present but falsy (the
empty string) set the warning flag, and the warning message appears exactly
once. -/
theorem c10_witness :
    anyFalsyName [recEmptyName, recEmptyName] = true ∧
      initScanLoop false [] [recEmptyName, recEmptyName] =
        Except.ok (true, ["x", "x"]) ∧
      (initMessages [recEmptyName, recEmptyName]).count msgNoName ≤ 1 ∧
      initMessages [recEmptyName, recEmptyName] = [msgNoName] := by
  obtain ⟨hmain, hcount⟩ := c10_falsy_name_warning [recEmptyName, recEmptyName]
  obtain ⟨gs, hscan, hiff⟩ := hmain (by decide)
  have hflag : anyFalsyName [recEmptyName, recEmptyName] = true :=
    hiff.mpr ⟨recEmptyName, List.mem_cons_self _ _, PyVal.str "", rfl, by decide⟩
  exact ⟨hflag, rfl, hcount, rfl⟩
